import Mathlib

/-!
# Verification of the Emulsion film-roll search engine

A shallow embedding of `backend/app/api/search.py` (the `SearchParser`
class: tokenizer, filter compiler, computed-filter evaluator) together
with the parts of `backend/app/models/film_roll.py` and
`backend/app/models/chemistry_batch.py` (derived `status`, `dev_cost`,
`total_cost`, `cost_per_roll` properties) that the search engine reads.

Python strings are modelled as Lean `String`, Python `int` as `Int`,
Python `float` and `decimal.Decimal` as `ℚ` (`inf`/`nan` float literals
are outside the model), `datetime.date` as an explicit
year/month/day structure with the constructor's validity check, and
SQLAlchemy filter expressions as an inductive syntax `StoreFilter` with
an evaluation function `evalFilter` over in-memory records.
-/

namespace Emulsion

/-! ## Python string helpers -/

/-- Python whitespace characters recognised by `str.strip()` / `int()` /
`float()` (ASCII fragment). -/
def isPyWS (c : Char) : Bool :=
  c = ' ' || c = '\t' || c = '\n' || c = '\r' || c = '\x0b' || c = '\x0c'

/-- Strip leading and trailing whitespace from a character list,
modelling Python `str.strip()` with no argument. -/
def stripWSList (cs : List Char) : List Char :=
  ((cs.dropWhile isPyWS).reverse.dropWhile isPyWS).reverse

/-- `s.strip()` on strings. -/
def pyStrip (s : String) : String :=
  ⟨stripWSList s.toList⟩

/-- `value.strip('"')`: remove all leading and trailing double-quote
characters. -/
def stripQuotes (s : String) : String :=
  ⟨((s.toList.dropWhile (· = '"')).reverse.dropWhile (· = '"')).reverse⟩

/-- ASCII lower-casing of a character list. -/
def lowerList (cs : List Char) : List Char := cs.map Char.toLower

/-- Python `str.lower()` (ASCII fragment). -/
def pyLower (s : String) : String := ⟨lowerList s.toList⟩

/-- Python `str.upper()` (ASCII fragment). -/
def pyUpper (s : String) : String := ⟨s.toList.map Char.toUpper⟩

/-- Is `needle` a contiguous sublist of `hay`? (decidable scan). -/
def isSubstr (needle hay : List Char) : Bool :=
  if needle.isPrefixOf hay then true
  else
    match hay with
    | [] => false
    | _ :: t => isSubstr needle t

/-- Case-insensitive containment test: models SQL
`col ILIKE '%' || needle || '%'` (for needles without LIKE wildcards)
and Python substring search after lower-casing. -/
def containsCI (hay needle : String) : Bool :=
  isSubstr (lowerList needle.toList) (lowerList hay.toList)

/-! ## Python numeric literal parsing

`int(value)` and `float(value)` accept surrounding whitespace, an
optional sign, and digit groups with single underscores between digits.
Only finite `float` literals are modelled. -/

/-- Parse a Python digit part: `digit (["_"] digit)*`; `acc` holds the
digits seen so far, returns digits (underscores removed) and the rest. -/
def digitPartAux : List Char → List Char → (List Char × List Char)
  | '_' :: c :: rest, acc =>
      if c.isDigit then digitPartAux rest (acc ++ [c]) else (acc, '_' :: c :: rest)
  | c :: rest, acc =>
      if c.isDigit then digitPartAux rest (acc ++ [c]) else (acc, c :: rest)
  | [], acc => (acc, [])

/-- Parse a digit part from the front of `cs`; fails when `cs` does not
start with a digit. -/
def digitPart (cs : List Char) : Option (List Char × List Char) :=
  match cs with
  | c :: rest => if c.isDigit then some (digitPartAux rest [c]) else none
  | [] => none

/-- Numeric value of a digit list. -/
def digitsToNat (ds : List Char) : Nat :=
  ds.foldl (fun acc c => 10 * acc + (c.toNat - '0'.toNat)) 0

/-- Optional sign: returns (sign, rest). -/
def parseSign : List Char → (Int × List Char)
  | '+' :: rest => (1, rest)
  | '-' :: rest => (-1, rest)
  | cs => (1, cs)

/-- Python `int(value)` on a string: whitespace-stripped, optional sign,
one digit part, nothing else.  `none` models `ValueError`. -/
def pyInt (s : String) : Option Int :=
  let cs := stripWSList s.toList
  let (sign, cs) := parseSign cs
  match digitPart cs with
  | some (ds, []) => some (sign * (digitsToNat ds : Int))
  | _ => none

/-- Parse the fractional/exponent tail of a float literal, given the
integer-part digits (possibly empty when the literal starts with `.`).
Returns the rational value; `none` models `ValueError`. -/
def pyFloatTail (sign : Int) (intDs : List Char) (cs : List Char) : Option ℚ :=
  let withExp (mantissa : ℚ) (cs : List Char) : Option ℚ :=
    match cs with
    | [] => some (sign * mantissa)
    | e :: rest =>
        if e = 'e' || e = 'E' then
          let (esign, rest) := parseSign rest
          match digitPart rest with
          | some (eds, []) =>
              some (sign * mantissa * (10 : ℚ) ^ (esign * (digitsToNat eds : Int)))
          | _ => none
        else none
  match cs with
  | '.' :: rest =>
      match digitPart rest with
      | some (fds, rest') =>
          withExp ((digitsToNat intDs : ℚ) +
            (digitsToNat fds : ℚ) / (10 : ℚ) ^ fds.length) rest'
      | none =>
          -- a bare trailing dot is allowed only after integer digits
          if intDs.isEmpty then none else withExp (digitsToNat intDs : ℚ) rest
  | _ =>
      if intDs.isEmpty then none else withExp (digitsToNat intDs : ℚ) cs

/-- Python `float(value)` restricted to finite literals:
`[ws] [sign] (digits [. [digits]] | . digits) [(e|E) [sign] digits] [ws]`. -/
def pyFloat (s : String) : Option ℚ :=
  let cs := stripWSList s.toList
  let (sign, cs) := parseSign cs
  match digitPart cs with
  | some (ds, rest) => pyFloatTail sign ds rest
  | none => pyFloatTail sign [] cs

/-! ## Python `datetime.date` -/

/-- A calendar date as the Python `datetime.date` constructor would hold
it (validity is checked by `mkDate`, not carried in the type). -/
structure PyDate where
  year : Int
  month : Int
  day : Int
  deriving DecidableEq, Repr

/-- Gregorian leap-year rule. -/
def isLeap (y : Int) : Bool :=
  y % 4 = 0 && (y % 100 ≠ 0 || y % 400 = 0)

/-- Days in a month. -/
def daysInMonth (y m : Int) : Int :=
  if m = 2 then (if isLeap y then 29 else 28)
  else if m = 4 || m = 6 || m = 9 || m = 11 then 30
  else 31

/-- `datetime.date(y, m, d)`: `none` models the `ValueError` raised on
out-of-range components (`MINYEAR = 1`, `MAXYEAR = 9999`). -/
def mkDate (y m d : Int) : Option PyDate :=
  if 1 ≤ y ∧ y ≤ 9999 ∧ 1 ≤ m ∧ m ≤ 12 ∧ 1 ≤ d ∧ d ≤ daysInMonth y m then
    some ⟨y, m, d⟩
  else none

/-- `d - timedelta(days=1)` for valid dates (year underflow, which would
raise in Python, is unreachable at the one call site). -/
def subOneDay (d : PyDate) : PyDate :=
  if d.day > 1 then ⟨d.year, d.month, d.day - 1⟩
  else if d.month > 1 then ⟨d.year, d.month - 1, daysInMonth d.year (d.month - 1)⟩
  else ⟨d.year - 1, 12, 31⟩

/-- Split a character list at every occurrence of `sep`, modelling
Python `str.split(sep)` (e.g. `value.split('-')`). -/
def splitOnChar (sep : Char) : List Char → List (List Char)
  | [] => [[]]
  | c :: rest =>
      let r := splitOnChar sep rest
      if c = sep then [] :: r
      else
        match r with
        | h :: t => (c :: h) :: t
        | [] => [[c]]

/-- `value.split('-')` on strings. -/
def pySplitDash (s : String) : List String :=
  (splitOnChar '-' s.toList).map (fun cs => ⟨cs⟩)

/-- `date.fromisoformat(value)` for the strict `YYYY-MM-DD` layout. -/
def parseISO (v : String) : Option PyDate :=
  match v.toList with
  | [a, b, c, d, '-', e, f, '-', g, h] =>
      if a.isDigit && b.isDigit && c.isDigit && d.isDigit &&
         e.isDigit && f.isDigit && g.isDigit && h.isDigit then
        mkDate (digitsToNat [a, b, c, d] : Int)
               (digitsToNat [e, f] : Int)
               (digitsToNat [g, h] : Int)
      else none
  | _ => none

/-- Lexicographic date order (how SQL compares `DATE` values). -/
def dateLt (a b : PyDate) : Bool :=
  a.year < b.year ||
  (a.year = b.year && (a.month < b.month ||
    (a.month = b.month && a.day < b.day)))

/-! ## Record model

Fields of `ChemistryBatch` and `FilmRoll` reachable from the search
engine.  `rollsCount` stands for `len(self.rolls)` of the lazy-loaded
relationship; nullable columns are `Option`s. -/

structure ChemistryBatch where
  id : String
  name : String
  developer_cost : ℚ
  fixer_cost : ℚ
  other_cost : ℚ
  rolls_offset : Int
  rollsCount : Nat
  deriving DecidableEq, Repr

/-- `ChemistryBatch.batch_cost`. -/
def ChemistryBatch.batch_cost (b : ChemistryBatch) : ℚ :=
  b.developer_cost + b.fixer_cost + b.other_cost

/-- `ChemistryBatch.rolls_developed`. -/
def ChemistryBatch.rolls_developed (b : ChemistryBatch) : Int :=
  (b.rollsCount : Int) + b.rolls_offset

/-- `ChemistryBatch.cost_per_roll`: `None` when `rolls_developed == 0`. -/
def ChemistryBatch.cost_per_roll (b : ChemistryBatch) : Option ℚ :=
  if b.rolls_developed = 0 then none
  else some (b.batch_cost / (b.rolls_developed : ℚ))

structure FilmRoll where
  id : String
  order_id : String
  film_stock_name : String
  film_format : String
  expected_exposures : Int
  actual_exposures : Option Int
  date_loaded : Option PyDate
  date_unloaded : Option PyDate
  push_pull_stops : Option ℚ
  chemistry_id : Option String
  stars : Option Int
  film_cost : ℚ
  not_mine : Bool
  notes : Option String
  deriving DecidableEq, Repr

/-- `FilmRoll.status`: lifecycle status derived from field presence. -/
def FilmRoll.status (r : FilmRoll) : String :=
  if r.stars.isSome then "SCANNED"
  else if r.chemistry_id.isSome then "DEVELOPED"
  else if r.date_unloaded.isSome then "EXPOSED"
  else if r.date_loaded.isSome then "LOADED"
  else "NEW"

/-- The `chemistry` relationship: resolve `chemistry_id` against the
chemistry-batch table `db`. -/
def FilmRoll.chemistry (db : List ChemistryBatch) (r : FilmRoll) :
    Option ChemistryBatch :=
  match r.chemistry_id with
  | none => none
  | some cid => db.find? (fun b => b.id = cid)

/-- `FilmRoll.dev_cost`. -/
def FilmRoll.dev_cost (db : List ChemistryBatch) (r : FilmRoll) : Option ℚ :=
  match r.chemistry db with
  | none => none
  | some b => b.cost_per_roll

/-- `FilmRoll.total_cost`: film + development, development only for
"not mine" rolls; `None` when `dev_cost` is `None`. -/
def FilmRoll.total_cost (db : List ChemistryBatch) (r : FilmRoll) : Option ℚ :=
  match r.dev_cost db with
  | none => none
  | some dc => if r.not_mine then some dc else some (r.film_cost + dc)

/-! ## SQLAlchemy filter expressions

An inductive syntax for the filter expressions `SearchParser` builds,
with an evaluator over in-memory `FilmRoll` records.  `ilikeContains a v`
stands for `getattr(FilmRoll, a).ilike(f"%{v}%")`; `textSearch v` for the
`or_` of the three `ilike`s in `_build_text_search_filter`; `andF` for
the binary `and_` used by the date range; `cmp` for
`col <op> typed_value`; `inIds` for `col.in_(ids)`. -/

/-- A typed comparison operand (the `typed_value` of the Python code). -/
inductive PyVal where
  | s (v : String)
  | i (v : Int)
  | r (v : ℚ)
  | b (v : Bool)
  | d (v : PyDate)
  deriving DecidableEq, Repr

inductive StoreFilter where
  | ilikeContains (attr : String) (val : String)
  | textSearch (val : String)
  | andF (f₁ f₂ : StoreFilter)
  | cmp (attr : String) (op : String) (v : PyVal)
  | inIds (attr : String) (ids : List String)
  deriving DecidableEq, Repr

/-- Value of a `FilmRoll` column, `none` for SQL `NULL` or a missing
attribute. -/
def rollAttr (r : FilmRoll) (attr : String) : Option PyVal :=
  if attr = "id" then some (.s r.id)
  else if attr = "order_id" then some (.s r.order_id)
  else if attr = "film_stock_name" then some (.s r.film_stock_name)
  else if attr = "film_format" then some (.s r.film_format)
  else if attr = "expected_exposures" then some (.i r.expected_exposures)
  else if attr = "actual_exposures" then r.actual_exposures.map .i
  else if attr = "date_loaded" then r.date_loaded.map .d
  else if attr = "date_unloaded" then r.date_unloaded.map .d
  else if attr = "push_pull_stops" then r.push_pull_stops.map .r
  else if attr = "chemistry_id" then r.chemistry_id.map .s
  else if attr = "stars" then r.stars.map .i
  else if attr = "film_cost" then some (.r r.film_cost)
  else if attr = "not_mine" then some (.b r.not_mine)
  else if attr = "notes" then r.notes.map .s
  else none

/-- SQL comparison of two operands of the same type; comparisons mixing
types (unreachable from the compiler) are `false`. -/
def evalCmp (a : PyVal) (op : String) (b : PyVal) : Bool :=
  match a, b with
  | .s x, .s y =>
      if op = "=" then x = y
      else if op = ">" then y < x
      else if op = "<" then x < y
      else if op = ">=" then ¬ x < y
      else if op = "<=" then ¬ y < x
      else false
  | .i x, .i y =>
      if op = "=" then x = y
      else if op = ">" then x > y
      else if op = "<" then x < y
      else if op = ">=" then x ≥ y
      else if op = "<=" then x ≤ y
      else false
  | .r x, .r y =>
      if op = "=" then x = y
      else if op = ">" then x > y
      else if op = "<" then x < y
      else if op = ">=" then x ≥ y
      else if op = "<=" then x ≤ y
      else false
  | .b x, .b y => if op = "=" then x = y else false
  | .d x, .d y =>
      if op = "=" then x = y
      else if op = ">" then dateLt y x
      else if op = "<" then dateLt x y
      else if op = ">=" then ¬ dateLt x y
      else if op = "<=" then ¬ dateLt y x
      else false
  | _, _ => false

/-- Evaluate a store filter against one record (SQL semantics: any
comparison against a `NULL` column is not satisfied). -/
def evalFilter (r : FilmRoll) : StoreFilter → Bool
  | .ilikeContains attr v =>
      match rollAttr r attr with
      | some (.s s) => containsCI s v
      | _ => false
  | .textSearch v =>
      containsCI r.film_stock_name v || containsCI r.order_id v ||
      (match r.notes with
       | some n => containsCI n v
       | none => false)
  | .andF f₁ f₂ => evalFilter r f₁ && evalFilter r f₂
  | .cmp attr op w =>
      match rollAttr r attr with
      | some v => evalCmp v op w
      | none => false
  | .inIds attr ids =>
      match rollAttr r attr with
      | some (.s s) => ids.contains s
      | _ => false

/-! ## Tokenizer (`SearchParser.parse`) -/

/-- A parsed search token; `field = none` is an unscoped text search. -/
structure SearchToken where
  field : Option String
  operator : String
  value : String
  deriving DecidableEq, Repr

/-- `SearchParser.FIELD_ALIASES`: user-facing field name → database
column (with `status` / `cost` as computed-field sentinels handled
specially by the compiler). -/
def FIELD_ALIASES : List (String × String) :=
  [("format", "film_format"),
   ("stock", "film_stock_name"),
   ("status", "status"),
   ("order", "order_id"),
   ("stars", "stars"),
   ("mine", "not_mine"),
   ("not_mine", "not_mine"),
   ("push", "push_pull_stops"),
   ("pull", "push_pull_stops"),
   ("chemistry", "chemistry_id"),
   ("cost", "total_cost"),
   ("date", "date_loaded")]

/-- `_split_respecting_quotes` loop: split on spaces outside quotes;
a `"` toggles the quote state and is itself dropped. -/
def splitRQAux : List Char → List Char → Bool → List String
  | [], cur, _ => if cur.isEmpty then [] else [⟨cur⟩]
  | c :: rest, cur, inq =>
      if c = '"' then splitRQAux rest cur (!inq)
      else if c = ' ' && !inq then
        if cur.isEmpty then splitRQAux rest [] inq
        else (⟨cur⟩ : String) :: splitRQAux rest [] inq
      else splitRQAux rest (cur ++ [c]) inq

/-- `SearchParser._split_respecting_quotes`. -/
def splitRespectingQuotes (q : String) : List String :=
  splitRQAux q.toList [] false

/-- Python regex `\w` (ASCII fragment: the field names the parser
compares against are ASCII). -/
def isWordChar (c : Char) : Bool := c.isAlphanum || c = '_'

/-- Split a part into a leading `\w+` run followed by `:`, as both
regexes `^(\w+):...` require (the run is maximal, since `:` is not a
word character, so regex backtracking cannot produce another split). -/
def matchIdentColon (cs : List Char) : Option (List Char × List Char) :=
  let ident := cs.takeWhile isWordChar
  let rest := cs.dropWhile isWordChar
  if ident.isEmpty then none
  else
    match rest with
    | ':' :: after => some (ident, after)
    | _ => none

/-- Comparison-operator alternation `(>=|<=|>|<|=)(.+)` with regex
backtracking: alternatives are tried in order and an alternative only
succeeds when a non-empty value follows it. -/
def matchOpValue (cs : List Char) : Option (String × List Char) :=
  let tryOne (op : String) (cs : List Char) : Option (String × List Char) :=
    if op.toList.isPrefixOf cs then
      let rest := cs.drop op.length
      if rest.isEmpty then none else some (op, rest)
    else none
  match tryOne ">=" cs with
  | some r => some r
  | none =>
  match tryOne "<=" cs with
  | some r => some r
  | none =>
  match tryOne ">" cs with
  | some r => some r
  | none =>
  match tryOne "<" cs with
  | some r => some r
  | none => tryOne "=" cs

/-- Regex `^(\w+):(>=|<=|>|<|=)(.+)$` (field, operator, raw value);
parts containing newline characters, which `.` does not match, are
outside the model. -/
def matchPattern1 (part : String) : Option (String × String × String) :=
  match matchIdentColon part.toList with
  | none => none
  | some (ident, after) =>
      match matchOpValue after with
      | none => none
      | some (op, val) => some (⟨ident⟩, op, ⟨val⟩)

/-- Regex `^(\w+):(.+)$` (field, raw value). -/
def matchPattern2 (part : String) : Option (String × String) :=
  match matchIdentColon part.toList with
  | none => none
  | some (ident, after) =>
      if after.isEmpty then none else some (⟨ident⟩, ⟨after⟩)

/-- `SearchParser._parse_field_token`. -/
def parseFieldToken (part : String) : Option SearchToken :=
  let fov : Option (String × String × String) :=
    match matchPattern1 part with
    | some (f, op, v) => some (pyLower f, op, stripQuotes v)
    | none =>
        match matchPattern2 part with
        | some (f, v) => some (pyLower f, "=", stripQuotes v)
        | none => none
  match fov with
  | none => none
  | some (fieldName, op, value) =>
      if (FIELD_ALIASES.lookup fieldName).isSome then
        some ⟨some fieldName, op, value⟩
      else
        -- unknown field: the whole part becomes an unscoped text token
        some ⟨none, "contains", part⟩

/-- The per-part branch of the `parse` loop: parts containing `:` go
through `_parse_field_token` (a `None` result is dropped), the rest
become unscoped `contains` tokens. -/
def partTokens (part : String) : List SearchToken :=
  if part.toList.contains ':' then (parseFieldToken part).toList
  else [⟨none, "contains", part⟩]

/-- `SearchParser.parse`. -/
def parse (q : String) : List SearchToken :=
  if (pyStrip q).isEmpty then []
  else (splitRespectingQuotes (pyStrip q)).flatMap partTokens

/-! ## Filter compiler (`SearchParser.build_filters`) -/

/-- The `python_type` of a SQLAlchemy column type: `String`/`Text` →
`str`, `Integer` → `int`, `Numeric` → `decimal.Decimal`, `Boolean` →
`bool`, `Date` → `datetime.date`. -/
inductive PyType where
  | PStr | PInt | PFloat | PBool | PDecimal | PDate
  deriving DecidableEq, Repr

/-- `getattr(FilmRoll, name, None)` followed by `.type.python_type`,
from the column declarations of `film_roll.py`. -/
def pythonType (attr : String) : Option PyType :=
  if attr = "id" then some .PStr
  else if attr = "order_id" then some .PStr
  else if attr = "film_stock_name" then some .PStr
  else if attr = "film_format" then some .PStr
  else if attr = "expected_exposures" then some .PInt
  else if attr = "actual_exposures" then some .PInt
  else if attr = "date_loaded" then some .PDate
  else if attr = "date_unloaded" then some .PDate
  else if attr = "push_pull_stops" then some .PDecimal
  else if attr = "chemistry_id" then some .PStr
  else if attr = "stars" then some .PInt
  else if attr = "film_cost" then some .PDecimal
  else if attr = "not_mine" then some .PBool
  else if attr = "notes" then some .PStr
  else none

/-- `SearchParser._convert_value`: only `int`, `float` and `bool` get a
real conversion; every other python type falls through to the raw
string.  `none` models the `ValueError` the caller catches. -/
def convertValue (value : String) (t : PyType) : Option PyVal :=
  match t with
  | .PInt => (pyInt value).map .i
  | .PFloat => (pyFloat value).map .r
  | .PBool => some (.b (["true", "yes", "1", "t", "y"].contains (pyLower value)))
  | _ => some (.s value)

/-- The comparison operators of the query syntax other than `=`. -/
def ORDER_OPS : List String := [">", "<", ">=", "<="]

/-- `SearchParser._build_standard_filter`. -/
def buildStandardFilter (field op value : String) : Option StoreFilter :=
  let dbFieldName := ((FIELD_ALIASES.lookup field).getD field)
  match pythonType dbFieldName with
  | none => none
  | some t =>
      if op = "=" then
        if t = .PStr then some (.ilikeContains dbFieldName value)
        else
          match convertValue value t with
          | some tv => some (.cmp dbFieldName "=" tv)
          | none => none
      else if ORDER_OPS.contains op then
        match convertValue value t with
        | some tv => some (.cmp dbFieldName op tv)
        | none => none
      else none

/-- `SearchParser._build_chemistry_filter`: a name lookup against the
chemistry-batch table; zero matches yield the sentinel filter
`chemistry_id == 'no-match'`. -/
def buildChemistryFilter (db : List ChemistryBatch) (value : String) :
    StoreFilter :=
  let hits := db.filter (fun b => containsCI b.name value)
  if hits.isEmpty then .cmp "chemistry_id" "=" (.s "no-match")
  else .inIds "chemistry_id" (hits.map (fun b => b.id))

/-- `SearchParser._build_not_mine_filter` (used for both the `mine` and
`not_mine` aliases). -/
def buildNotMineFilter (op value : String) : Option StoreFilter :=
  let boolValue := ["true", "yes", "1", "t", "y"].contains (pyLower value)
  if op = "=" then some (.cmp "not_mine" "=" (.b boolValue)) else none

/-- The inclusive `date_loaded` range filter
`and_(date_loaded >= lo, date_loaded <= hi)`. -/
def dateRange (lo hi : PyDate) : StoreFilter :=
  .andF (.cmp "date_loaded" ">=" (.d lo)) (.cmp "date_loaded" "<=" (.d hi))

/-- `SearchParser._build_date_filter`: granularity is chosen by the
length of `value`; a `ValueError` anywhere (modelled by the `none`
branches) is caught and yields no filter. -/
def buildDateFilter (op value : String) : Option StoreFilter :=
  if value.length = 4 then
    match pyInt value with
    | none => none
    | some year =>
        match mkDate year 1 1, mkDate year 12 31 with
        | some lo, some hi => some (dateRange lo hi)
        | _, _ => none
  else if value.length = 7 then
    match pySplitDash value with
    | [ys, ms] =>
        match pyInt ys, pyInt ms with
        | some year, some month =>
            match mkDate year month 1 with
            | none => none
            | some lo =>
                if month = 12 then
                  match mkDate year 12 31 with
                  | some hi => some (dateRange lo hi)
                  | none => none
                else
                  match mkDate year (month + 1) 1 with
                  | none => none
                  | some firstNext => some (dateRange lo (subOneDay firstNext))
        | _, _ => none
    | _ => none
  else if value.length = 10 then
    match parseISO value with
    | none => none
    | some d =>
        if op = "=" || ORDER_OPS.contains op then
          some (.cmp "date_loaded" op (.d d))
        else none
  else none

/-- `SearchParser._build_push_pull_filter`: `value.replace('+', '')`
removes every `+` character before `float` conversion; the `pull` alias
forces the value to `-abs(x)`. -/
def buildPushPullFilter (field op value : String) : Option StoreFilter :=
  match pyFloat ⟨value.toList.filter (· ≠ '+')⟩ with
  | none => none
  | some x =>
      let x := if field = "pull" then -|x| else x
      if op = "=" || ORDER_OPS.contains op then
        some (.cmp "push_pull_stops" op (.r x))
      else none

/-- `SearchParser._build_text_search_filter`: `or_` of case-insensitive
substring matches on stock name, order id and notes. -/
def buildTextSearchFilter (text : String) : StoreFilter :=
  .textSearch text

/-- What `_build_field_filter` returns: `None`, a SQL filter, or a
computed-field name (a Python `str`). -/
inductive FieldFilterResult where
  | noFilter
  | store (f : StoreFilter)
  | computed (name : String)
  deriving DecidableEq, Repr

/-- Lift the `Option StoreFilter` helpers into `FieldFilterResult`. -/
def ofOption : Option StoreFilter → FieldFilterResult
  | none => .noFilter
  | some f => .store f

/-- `SearchParser._build_field_filter` (dispatch on the token's field;
only called with `field ≠ None`). -/
def buildFieldFilter (db : List ChemistryBatch) (tok : SearchToken) :
    FieldFilterResult :=
  let field := tok.field.getD ""
  if field = "chemistry" then .store (buildChemistryFilter db tok.value)
  else if field = "status" then .computed "status"
  else if field = "cost" then .computed "total_cost"
  else if field = "mine" || field = "not_mine" then
    ofOption (buildNotMineFilter tok.operator tok.value)
  else if field = "date" then
    ofOption (buildDateFilter tok.operator tok.value)
  else if field = "push" || field = "pull" then
    ofOption (buildPushPullFilter field tok.operator tok.value)
  else ofOption (buildStandardFilter field tok.operator tok.value)

/-- A computed filter triple `(field_name, operator, value)`. -/
abbrev ComputedFilter := String × String × String

/-- `SearchParser.build_filters`: split tokens into SQL filters and
computed filters, in token order.  (`_build_text_search_filter` never
returns `None`, so the unscoped branch always appends.) -/
def buildFilters (db : List ChemistryBatch) :
    List SearchToken → List StoreFilter × List ComputedFilter
  | [] => ([], [])
  | tok :: rest =>
      let (sqls, comps) := buildFilters db rest
      match tok.field with
      | none => (buildTextSearchFilter tok.value :: sqls, comps)
      | some _ =>
          match buildFieldFilter db tok with
          | .noFilter => (sqls, comps)
          | .store f => (f :: sqls, comps)
          | .computed name => (sqls, (name, tok.operator, tok.value) :: comps)

/-! ## Computed-filter evaluator (`SearchParser.apply_computed_filters`) -/

/-- `SearchParser._compare_values` (status comparison: only `=`). -/
def compareValues (actual op expected : String) : Bool :=
  if op = "=" then pyUpper actual = pyUpper expected else false

/-- `SearchParser._compare_numeric` (`=` with a `0.01` tolerance). -/
def compareNumeric (actual : ℚ) (op : String) (expected : ℚ) : Bool :=
  if op = "=" then |actual - expected| < 1/100
  else if op = ">" then actual > expected
  else if op = "<" then actual < expected
  else if op = ">=" then actual ≥ expected
  else if op = "<=" then actual ≤ expected
  else false

/-- One computed filter applied to one roll (the body of the inner loop
of `apply_computed_filters`; field names other than `status` /
`total_cost` leave `matches` untouched). -/
def computedHolds (db : List ChemistryBatch) (r : FilmRoll)
    (f : ComputedFilter) : Bool :=
  let (fieldName, op, value) := f
  if fieldName = "status" then compareValues r.status op (pyUpper value)
  else if fieldName = "total_cost" then
    match r.total_cost db with
    | none => false
    | some tc =>
        match pyFloat value with
        | none => false
        | some costValue => compareNumeric tc op costValue
  else true

/-- A roll passes when every computed filter holds (the Python loop
short-circuits on the first failure; `List.all` does the same). -/
def rollMatches (db : List ChemistryBatch) (fs : List ComputedFilter)
    (r : FilmRoll) : Bool :=
  fs.all (computedHolds db r)

/-- `SearchParser.apply_computed_filters`. -/
def applyComputedFilters (db : List ChemistryBatch) (rolls : List FilmRoll)
    (fs : List ComputedFilter) : List FilmRoll :=
  if fs.isEmpty then rolls
  else rolls.filter (rollMatches db fs)

/-! ## Specification-side predicates and sample records -/

/-- The set of date values the date-filter compiler accepts (a value of
length 4 parsing to a representable year, of length 7 parsing to a
representable year-month, or of length 10 in `YYYY-MM-DD` form);
everything else is malformed. -/
def dateValueWF (v : String) : Bool :=
  if v.length = 4 then
    match pyInt v with
    | some y => decide (1 ≤ y ∧ y ≤ 9999)
    | none => false
  else if v.length = 7 then
    match pySplitDash v with
    | [ys, ms] =>
        match pyInt ys, pyInt ms with
        | some y, some m => decide (1 ≤ y ∧ y ≤ 9999 ∧ 1 ≤ m ∧ m ≤ 12)
        | _, _ => false
    | _ => false
  else if v.length = 10 then (parseISO v).isSome
  else false

/-- The push/pull value normalisation in the spec's words ("stripping a
leading `+`"): remove one leading `+` only — contrast with the source's
`value.replace('+', '')`, which removes every `+`. -/
def specStripLeadingPlus (s : String) : String :=
  match s.toList with
  | '+' :: rest => ⟨rest⟩
  | _ => s

def loadedDate : PyDate := ⟨2023, 5, 1⟩

/-- A roll whose derived status is `LOADED`. -/
def rollLoadedA : FilmRoll :=
  { id := "r1", order_id := "A1", film_stock_name := "Portra 400",
    film_format := "120", expected_exposures := 12, actual_exposures := none,
    date_loaded := some loadedDate, date_unloaded := none,
    push_pull_stops := none, chemistry_id := none, stars := none,
    film_cost := 10, not_mine := false, notes := none }

/-- A roll whose derived status is `NEW`. -/
def rollNewB : FilmRoll := { rollLoadedA with id := "r2", date_loaded := none }

/-- A second roll whose derived status is `LOADED`. -/
def rollLoadedC : FilmRoll := { rollLoadedA with id := "r3" }

/-- A chemistry batch with two developed rolls
(`cost_per_roll = (4 + 2 + 0) / 2 = 3`). -/
def batchC41 : ChemistryBatch :=
  { id := "00000000-0000-0000-0000-000000000000", name := "C41 Kit",
    developer_cost := 4, fixer_cost := 2, other_cost := 0,
    rolls_offset := 0, rollsCount := 2 }

/-- A roll developed in `batchC41` (`total_cost = 10 + 3 = 13`). -/
def rollDevD : FilmRoll :=
  { rollLoadedA with id := "r4", chemistry_id := some batchC41.id }

end Emulsion

namespace Emulsion

/-! ## Claims -/

/-- C1: a token whose field resolves to a computed sentinel (`status` or
`cost`) makes `build_filters` emit exactly one computed-filter triple
(resolved name `status` resp. `total_cost`, the token's operator and
value) and no store filter; in particular the single token
`(status, =, loaded)` yields zero store filters and the one computed
filter `("status", "=", "loaded")`. -/
theorem status_cost_compile_to_computed_filters :
    (∀ db op v, buildFieldFilter db ⟨some "status", op, v⟩ = .computed "status") ∧
    (∀ db op v, buildFieldFilter db ⟨some "cost", op, v⟩ = .computed "total_cost") ∧
    (∀ db op v rest,
      buildFilters db (⟨some "status", op, v⟩ :: rest) =
        ((buildFilters db rest).1, ("status", op, v) :: (buildFilters db rest).2)) ∧
    (∀ db op v rest,
      buildFilters db (⟨some "cost", op, v⟩ :: rest) =
        ((buildFilters db rest).1, ("total_cost", op, v) :: (buildFilters db rest).2)) ∧
    (∀ db, buildFilters db [⟨some "status", "=", "loaded"⟩] =
      ([], [("status", "=", "loaded")])) := by
  refine ⟨fun db op v => rfl, fun db op v => rfl, ?_, ?_, fun db => rfl⟩ <;>
    intro db op v rest <;> rfl

/-- C2: applying an empty computed-filter list returns the input record
list identically, and for every non-empty computed-filter list the
result is a sublist of the input (order-preserving, no duplication). -/
theorem applyComputedFilters_identity_and_sublist :
    (∀ db rolls, applyComputedFilters db rolls [] = rolls) ∧
    (∀ db rolls fs, fs ≠ [] →
      (applyComputedFilters db rolls fs).Sublist rolls) ∧
    applyComputedFilters [] [rollLoadedA, rollNewB, rollLoadedC]
      [("status", "=", "LOADED")] = [rollLoadedA, rollLoadedC] := by
  refine ⟨fun db rolls => rfl, fun db rolls fs hfs => ?_, by decide⟩
  unfold applyComputedFilters
  rw [if_neg (by simpa using hfs)]
  exact List.filter_sublist rolls

/-- Witness for C2 at a concrete record list and computed filter. -/
theorem applyComputedFilters_identity_and_sublist_witness :
    applyComputedFilters [] [rollLoadedA, rollNewB, rollLoadedC] [] =
      [rollLoadedA, rollNewB, rollLoadedC] ∧
    (applyComputedFilters [] [rollLoadedA, rollNewB, rollLoadedC]
      [("status", "=", "LOADED")]).Sublist [rollLoadedA, rollNewB, rollLoadedC] :=
  ⟨applyComputedFilters_identity_and_sublist.1 [] _,
   applyComputedFilters_identity_and_sublist.2.1 [] _ _ (by simp)⟩

/-- C9: the `mine` and `not_mine` aliases compile identically — the same
equality filter on the stored `not_mine` column with the value parsed
through the truthy set, `=` the only supported operator — with no
inversion applied for `mine`. -/
theorem mine_not_mine_identical :
    (∀ db op v, buildFieldFilter db ⟨some "mine", op, v⟩ =
      buildFieldFilter db ⟨some "not_mine", op, v⟩) ∧
    (∀ v, buildNotMineFilter "=" v =
      some (.cmp "not_mine" "=" (.b (["true", "yes", "1", "t", "y"].contains (pyLower v))))) ∧
    (∀ op v, op ≠ "=" → buildNotMineFilter op v = none) := by
  refine ⟨fun db op v => rfl, fun v => rfl, fun op v hop => ?_⟩
  unfold buildNotMineFilter
  simp [hop]

/-- A successful `\w+ :`-split decomposes the part: the identifier is
the maximal leading word-character run and a colon follows it. -/
theorem matchIdentColon_sound {cs ident after : List Char}
    (h : matchIdentColon cs = some (ident, after)) :
    cs = ident ++ ':' :: after := by
  unfold matchIdentColon at h
  by_cases he : (cs.takeWhile isWordChar).isEmpty
  · simp [he] at h
  · rw [if_neg he] at h
    cases hd : cs.dropWhile isWordChar with
    | nil => rw [hd] at h; cases h
    | cons c t =>
        rw [hd] at h
        by_cases hc : c = ':'
        · subst hc
          simp only [Option.some.injEq, Prod.mk.injEq] at h
          obtain ⟨h1, h2⟩ := h
          rw [← h1, ← h2, ← hd, List.takeWhile_append_dropWhile]
        · rw [show (match c :: t with
                | ':' :: after => some (cs.takeWhile isWordChar, after)
                | _ => (none : Option (List Char × List Char))) = none from by
              cases c; simp_all [hc]] at h
          cases h

/-- A successful operator-alternation match consumes a non-empty input. -/
theorem matchOpValue_ne_nil {cs : List Char} {op : String} {val : List Char}
    (h : matchOpValue cs = some (op, val)) : cs ≠ [] := by
  rintro rfl
  rw [show matchOpValue [] = none from rfl] at h
  cases h

/-- Any part matched by the comparison-operator regex is also matched by
the plain `field:value` regex, with the same field. -/
theorem matchPattern1_pattern2 {part : String} {f op : String} {v : String}
    (h : matchPattern1 part = some (f, op, v)) :
    ∃ v', matchPattern2 part = some (f, v') := by
  unfold matchPattern1 at h
  cases hic : matchIdentColon part.toList with
  | none => rw [hic] at h; cases h
  | some p =>
      obtain ⟨ident, after⟩ := p
      rw [hic] at h
      dsimp only at h
      cases hov : matchOpValue after with
      | none => rw [hov] at h; cases h
      | some q =>
          obtain ⟨op', val⟩ := q
          rw [hov] at h
          simp only [Option.some.injEq, Prod.mk.injEq] at h
          obtain ⟨h1, -, -⟩ := h
          refine ⟨⟨after⟩, ?_⟩
          unfold matchPattern2
          rw [hic]
          dsimp only
          rw [if_neg (by simpa [List.isEmpty_iff] using matchOpValue_ne_nil hov),
            ← h1]

/-- A part matched by either field regex contains a colon. -/
theorem matchPattern2_contains_colon {part : String} {f v : String}
    (h : matchPattern2 part = some (f, v)) :
    part.toList.contains ':' = true := by
  unfold matchPattern2 at h
  cases hic : matchIdentColon part.toList with
  | none => rw [hic] at h; cases h
  | some p =>
      obtain ⟨ident, after⟩ := p
      have := matchIdentColon_sound hic
      rw [this]
      simp

/-- C5: a part of shape `<identifier>:<rest>` whose lowercased
identifier is not a known field alias degrades to an unscoped
`contains` token carrying the entire original part, colon included;
in particular `parse "unknownfield:value"` yields exactly that token. -/
theorem unknown_field_degrades_to_contains :
    (∀ part f v, matchPattern2 part = some (f, v) →
      (FIELD_ALIASES.lookup (pyLower f)).isSome = false →
      parseFieldToken part = some ⟨none, "contains", part⟩ ∧
      partTokens part = [⟨none, "contains", part⟩]) ∧
    parse "unknownfield:value" =
      [⟨none, "contains", "unknownfield:value"⟩] := by
  refine ⟨fun part f v h2 halias => ?_, by decide⟩
  have hcolon := matchPattern2_contains_colon h2
  have htok : parseFieldToken part = some ⟨none, "contains", part⟩ := by
    unfold parseFieldToken
    cases h1 : matchPattern1 part with
    | none => rw [h2]; simp [halias]
    | some t =>
        obtain ⟨f1, op1, v1⟩ := t
        obtain ⟨v', hp2⟩ := matchPattern1_pattern2 h1
        rw [hp2] at h2
        simp only [Option.some.injEq, Prod.mk.injEq] at h2
        obtain ⟨rfl, -⟩ := h2
        simp [halias]
  have hmem : ':' ∈ part.data := by simpa using hcolon
  exact ⟨htok, by simp [partTokens, hmem, htok]⟩

/-- Witness for C5 at the concrete part `unknownfield:value`. -/
theorem unknown_field_degrades_to_contains_witness :
    parseFieldToken "unknownfield:value" =
      some ⟨none, "contains", "unknownfield:value"⟩ ∧
    partTokens "unknownfield:value" =
      [⟨none, "contains", "unknownfield:value"⟩] :=
  unknown_field_degrades_to_contains.1 "unknownfield:value"
    "unknownfield" "value" (by decide) (by decide)

/-- C10: a part containing a colon that matches neither field-token
regex (e.g. an empty right-hand side, or no identifier before the
colon) produces no token at all: it is silently dropped, neither kept
as a `contains` token nor an error. -/
theorem colon_parts_without_field_match_are_dropped :
    (∀ part, part.toList.contains ':' = true →
      matchPattern1 part = none → matchPattern2 part = none →
      parseFieldToken part = none ∧ partTokens part = []) ∧
    parse "format:" = [] ∧ parse ":value" = [] := by
  refine ⟨fun part hcolon h1 h2 => ?_, by decide, by decide⟩
  have htok : parseFieldToken part = none := by
    unfold parseFieldToken
    rw [h1, h2]
  have hmem : ':' ∈ part.data := by simpa using hcolon
  exact ⟨htok, by simp [partTokens, hmem, htok]⟩

/-- Witness for C10 at the concrete parts `format:` and `:value`. -/
theorem colon_parts_without_field_match_are_dropped_witness :
    (parseFieldToken "format:" = none ∧ partTokens "format:" = []) ∧
    (parseFieldToken ":value" = none ∧ partTokens ":value" = []) :=
  ⟨colon_parts_without_field_match_are_dropped.1 "format:"
      (by decide) (by decide) (by decide),
   colon_parts_without_field_match_are_dropped.1 ":value"
      (by decide) (by decide) (by decide)⟩

/-- Witness for C9 at a concrete non-equality operator. -/
theorem mine_not_mine_identical_witness :
    buildFieldFilter [] ⟨some "mine", ">", "yes"⟩ =
      buildFieldFilter [] ⟨some "not_mine", ">", "yes"⟩ ∧
    buildNotMineFilter "=" "Yes" =
      some (.cmp "not_mine" "=" (.b true)) ∧
    buildNotMineFilter ">" "yes" = none := by
  exact ⟨mine_not_mine_identical.1 [] ">" "yes",
    (mine_not_mine_identical.2.1 "Yes").trans (by decide),
    mine_not_mine_identical.2.2 ">" "yes" (by decide)⟩

/-- C4 counterexample: the source removes every `+` character
(`value.replace('+', '')`), not just a leading one.  The value `1+` is
not numeric after stripping only a leading `+`, yet the compiler emits
the filter `push_pull_stops = 1.0` for it, contradicting the claim that
such a value yields no filter. -/
theorem push_pull_leading_plus_counterexample :
    pyFloat (specStripLeadingPlus "1+") = none ∧
    buildPushPullFilter "push" "=" "1+" =
      some (.cmp "push_pull_stops" "=" (.r 1)) := by
  refine ⟨by decide, ?_⟩
  unfold buildPushPullFilter
  rw [show pyFloat ⟨("1+").toList.filter (· ≠ '+')⟩ = some 1 from by
    simp +decide [pyFloat, pyFloatTail, digitPart, digitPartAux, parseSign,
      stripWSList, isPyWS, digitsToNat]]
  decide

/-- C4 (amended): the value is parsed as a numeric stop count after
removing every `+` character; for field `pull` the parsed number's sign
is forced negative (`-abs`) regardless of the input's sign; the emitted
filter applies the token's comparison operator to the stored push/pull
attribute with that number; a value that is not numeric after the `+`
removal yields no filter. -/
theorem push_pull_plus_removal_spec (field op v : String) (x : ℚ) :
    (pyFloat ⟨v.toList.filter (· ≠ '+')⟩ = none →
      buildPushPullFilter field op v = none) ∧
    (pyFloat ⟨v.toList.filter (· ≠ '+')⟩ = some x →
      (op = "=" ∨ ORDER_OPS.contains op = true) →
      buildPushPullFilter "push" op v =
        some (.cmp "push_pull_stops" op (.r x)) ∧
      buildPushPullFilter "pull" op v =
        some (.cmp "push_pull_stops" op (.r (-|x|)))) := by
  constructor
  · intro h
    unfold buildPushPullFilter
    rw [h]
  · intro h hop
    have hop2 : op = "=" ∨ op ∈ ORDER_OPS := by
      rcases hop with h' | h'
      · exact Or.inl h'
      · exact Or.inr (by simpa using h')
    unfold buildPushPullFilter
    rw [h]
    have hmem : op = "=" ∨ op = ">" ∨ op = "<" ∨ op = ">=" ∨ op = "<=" := by
      simpa [ORDER_OPS, or_assoc] using hop2
    rcases hmem with rfl | rfl | rfl | rfl | rfl <;>
      exact ⟨by simp [ORDER_OPS], by simp [ORDER_OPS]⟩

/-- Witness for C4's amended theorem at `+1.5` (parsed) and `abc`
(rejected). -/
theorem push_pull_plus_removal_spec_witness :
    buildPushPullFilter "push" ">=" "+1.5" =
      some (.cmp "push_pull_stops" ">=" (.r (3/2))) ∧
    buildPushPullFilter "pull" ">=" "+1.5" =
      some (.cmp "push_pull_stops" ">=" (.r (-|(3/2 : ℚ)|))) ∧
    buildPushPullFilter "push" "=" "abc" = none := by
  have hsome := (push_pull_plus_removal_spec "push" ">=" "+1.5" (3/2)).2
    (by simp +decide [pyFloat, pyFloatTail, digitPart, digitPartAux, parseSign,
        stripWSList, isPyWS, digitsToNat]
        norm_num)
    (Or.inr (by decide))
  exact ⟨hsome.1, hsome.2,
    (push_pull_plus_removal_spec "push" "=" "abc" 0).1 (by decide)⟩

/-- C6: `=` on a standard field whose resolved column is text-typed
compiles to a case-insensitive substring filter rather than exact
equality; `=` on a non-text column compiles to exact equality after
type coercion, with a failed coercion yielding no filter. -/
theorem standard_equality_filter_spec :
    (∀ field attr v, FIELD_ALIASES.lookup field = some attr →
      pythonType attr = some .PStr →
      buildStandardFilter field "=" v = some (.ilikeContains attr v)) ∧
    (∀ field attr v t, FIELD_ALIASES.lookup field = some attr →
      pythonType attr = some t → t ≠ .PStr →
      buildStandardFilter field "=" v =
        (convertValue v t).map (fun tv => .cmp attr "=" tv)) ∧
    (∀ (r : FilmRoll) (v : String),
      evalFilter r (.ilikeContains "film_format" v) =
        containsCI r.film_format v) ∧
    (evalFilter rollLoadedA (.ilikeContains "film_format" "2") = true ∧
      rollLoadedA.film_format ≠ "2") := by
  refine ⟨fun field attr v hl ht => ?_, fun field attr v t hl ht hne => ?_,
    fun r v => rfl, by decide⟩
  · unfold buildStandardFilter
    rw [hl]
    simp [Option.getD, ht]
  · unfold buildStandardFilter
    rw [hl]
    simp only [Option.getD_some, ht]
    cases hc : convertValue v t with
    | none => simp [hne, hc]
    | some tv => simp [hne, hc]

/-- Witness for C6: the text-typed alias `format`, and the int-typed
alias `stars` with a parsing and a non-parsing value. -/
theorem standard_equality_filter_spec_witness :
    buildStandardFilter "format" "=" "port" =
      some (.ilikeContains "film_format" "port") ∧
    buildStandardFilter "stars" "=" "4" =
      some (.cmp "stars" "=" (.i 4)) ∧
    buildStandardFilter "stars" "=" "x" = none := by
  refine ⟨standard_equality_filter_spec.1 "format" "film_format" "port"
      (by decide) (by decide), ?_, ?_⟩
  · exact (standard_equality_filter_spec.2.1 "stars" "stars" "4" .PInt
      (by decide) (by decide) (by decide)).trans (by decide)
  · exact (standard_equality_filter_spec.2.1 "stars" "stars" "x" .PInt
      (by decide) (by decide) (by decide)).trans (by decide)

/-- C8: under a computed cost filter a record is kept only when its
derived total cost is non-null and the target value parses as a number;
when both hold, retention is decided by `_compare_numeric`, whose `=`
holds iff the absolute difference is below the `0.01` tolerance and
whose order operators are the ordinary comparisons. -/
theorem cost_filter_spec (db : List ChemistryBatch) (r : FilmRoll)
    (op v : String) :
    (r.total_cost db = none →
      applyComputedFilters db [r] [("total_cost", op, v)] = []) ∧
    (pyFloat v = none →
      applyComputedFilters db [r] [("total_cost", op, v)] = []) ∧
    (∀ tc x, r.total_cost db = some tc → pyFloat v = some x →
      applyComputedFilters db [r] [("total_cost", op, v)] =
        if compareNumeric tc op x then [r] else []) ∧
    (∀ a e : ℚ, (compareNumeric a "=" e = true ↔ |a - e| < 1/100) ∧
      (compareNumeric a ">" e = true ↔ a > e) ∧
      (compareNumeric a "<" e = true ↔ a < e) ∧
      (compareNumeric a ">=" e = true ↔ a ≥ e) ∧
      (compareNumeric a "<=" e = true ↔ a ≤ e)) := by
  have key : ∀ f : ComputedFilter, applyComputedFilters db [r] [f] =
      if computedHolds db r f then [r] else [] := by
    intro f
    cases hcf : computedHolds db r f <;>
      simp [applyComputedFilters, rollMatches, List.filter_cons, hcf]
  refine ⟨fun h => ?_, fun h => ?_, fun tc x htc hx => ?_, fun a e => ?_⟩
  · rw [key]
    have hcf : computedHolds db r ("total_cost", op, v) = false := by
      unfold computedHolds
      simp [h]
    simp [hcf]
  · rw [key]
    have hcf : computedHolds db r ("total_cost", op, v) = false := by
      unfold computedHolds
      cases htc : r.total_cost db <;> simp [h, htc]
    simp [hcf]
  · rw [key]
    have hcf : computedHolds db r ("total_cost", op, v) =
        compareNumeric tc op x := by
      unfold computedHolds
      simp [htc, hx]
    rw [hcf]
  · refine ⟨?_, ?_, ?_, ?_, ?_⟩ <;> simp [compareNumeric]

/-- Witness for C8: a roll with total cost `13` against the filter
`total_cost > 10`. -/
theorem cost_filter_spec_witness :
    applyComputedFilters [batchC41] [rollDevD]
      [("total_cost", ">", "10")] = [rollDevD] := by
  have htc : FilmRoll.total_cost [batchC41] rollDevD = some 13 := by
    simp +decide [FilmRoll.total_cost, FilmRoll.dev_cost, FilmRoll.chemistry,
      ChemistryBatch.cost_per_roll, ChemistryBatch.batch_cost,
      ChemistryBatch.rolls_developed, rollDevD, batchC41, rollLoadedA,
      List.find?]
    norm_num
  have hpf : pyFloat "10" = some 10 := by
    simp +decide [pyFloat, pyFloatTail, digitPart, digitPartAux, parseSign,
      stripWSList, isPyWS, digitsToNat]
  have h := (cost_filter_spec [batchC41] rollDevD ">" "10").2.2.1 13 10 htc hpf
  rw [h]
  rw [show compareNumeric 13 ">" 10 = true from by simp +decide [compareNumeric]]
  rfl

/-- C7: the chemistry filter resolves the value against chemistry-batch
names case-insensitively; with zero matching batches it emits the
`chemistry_id = 'no-match'` sentinel — which matches no roll under
referential integrity with 36-character UUID batch ids — instead of
raising; with at least one match it emits a filter satisfied exactly by
the rolls whose chemistry reference is among the matched batch ids. -/
theorem chemistry_filter_spec :
    (∀ db v, db.filter (fun b => containsCI b.name v) = [] →
      buildChemistryFilter db v = .cmp "chemistry_id" "=" (.s "no-match") ∧
      ∀ r : FilmRoll,
        (∀ cid, r.chemistry_id = some cid → ∃ b ∈ db, b.id = cid) →
        (∀ b ∈ db, b.id.length = 36) →
        evalFilter r (buildChemistryFilter db v) = false) ∧
    (∀ db v, db.filter (fun b => containsCI b.name v) ≠ [] →
      buildChemistryFilter db v =
        .inIds "chemistry_id"
          ((db.filter (fun b => containsCI b.name v)).map (fun b => b.id)) ∧
      ∀ r : FilmRoll,
        (evalFilter r (buildChemistryFilter db v) = true ↔
          ∃ cid, r.chemistry_id = some cid ∧
            cid ∈ (db.filter (fun b => containsCI b.name v)).map
              (fun b => b.id))) := by
  refine ⟨fun db v hempty => ?_, fun db v hne => ?_⟩
  · have hbf : buildChemistryFilter db v =
        .cmp "chemistry_id" "=" (.s "no-match") := by
      unfold buildChemistryFilter
      simp [hempty]
    refine ⟨hbf, fun r hfk huuid => ?_⟩
    rw [hbf]
    cases hcid : r.chemistry_id with
    | none => simp [evalFilter, rollAttr, hcid]
    | some cid =>
        obtain ⟨b, hb, hbid⟩ := hfk cid hcid
        have hlen : cid.length = 36 := by rw [← hbid]; exact huuid b hb
        have hnm : cid ≠ "no-match" := by
          intro hh
          rw [hh] at hlen
          exact absurd hlen (by decide)
        simp [evalFilter, rollAttr, hcid, evalCmp, hnm]
  · have hbf : buildChemistryFilter db v =
        .inIds "chemistry_id"
          ((db.filter (fun b => containsCI b.name v)).map (fun b => b.id)) := by
      unfold buildChemistryFilter
      simp [List.isEmpty_iff, hne]
    refine ⟨hbf, fun r => ?_⟩
    rw [hbf]
    cases hcid : r.chemistry_id with
    | none => simp [evalFilter, rollAttr, hcid]
    | some cid => simp [evalFilter, rollAttr, hcid]

/-- Witness for C7: the one-batch table against a value matching no
batch name and a value matching one. -/
theorem chemistry_filter_spec_witness :
    evalFilter rollDevD (buildChemistryFilter [batchC41] "xyz") = false ∧
    buildChemistryFilter [batchC41] "c41" =
      .inIds "chemistry_id" [batchC41.id] := by
  constructor
  · exact (chemistry_filter_spec.1 [batchC41] "xyz" (by decide)).2 rollDevD
      (fun cid hc =>
        ⟨batchC41, by simp, Option.some.inj hc⟩)
      (by decide)
  · exact ((chemistry_filter_spec.2 [batchC41] "c41" (by decide)).1).trans
      (by decide)

/-- Every month length is at least one day. -/
theorem daysInMonth_pos (y m : Int) : 1 ≤ daysInMonth y m := by
  unfold daysInMonth
  split_ifs <;> norm_num

/-- `date(y, 1, 1)` is valid exactly when the year is representable. -/
theorem mkDate_jan1 (y : Int) :
    mkDate y 1 1 = if 1 ≤ y ∧ y ≤ 9999 then some ⟨y, 1, 1⟩ else none := by
  unfold mkDate
  by_cases hc : 1 ≤ y ∧ y ≤ 9999
  · rw [if_pos ⟨hc.1, hc.2, by norm_num, by norm_num, by norm_num,
      daysInMonth_pos y 1⟩, if_pos hc]
  · rw [if_neg (fun hfull => hc ⟨hfull.1, hfull.2.1⟩), if_neg hc]

/-- `date(y, 12, 31)` is valid exactly when the year is representable. -/
theorem mkDate_dec31 (y : Int) :
    mkDate y 12 31 = if 1 ≤ y ∧ y ≤ 9999 then some ⟨y, 12, 31⟩ else none := by
  unfold mkDate
  by_cases hc : 1 ≤ y ∧ y ≤ 9999
  · rw [if_pos ⟨hc.1, hc.2, by norm_num, by norm_num, by norm_num,
      by norm_num [daysInMonth]⟩, if_pos hc]
  · rw [if_neg (fun hfull => hc ⟨hfull.1, hfull.2.1⟩), if_neg hc]

/-- `date(y, m, 1)` is valid exactly when year and month are in range. -/
theorem mkDate_first_of_month (y m : Int) :
    mkDate y m 1 =
      if 1 ≤ y ∧ y ≤ 9999 ∧ 1 ≤ m ∧ m ≤ 12 then some ⟨y, m, 1⟩ else none := by
  unfold mkDate
  by_cases hc : 1 ≤ y ∧ y ≤ 9999 ∧ 1 ≤ m ∧ m ≤ 12
  · rw [if_pos ⟨hc.1, hc.2.1, hc.2.2.1, hc.2.2.2, by norm_num,
      daysInMonth_pos y m⟩, if_pos hc]
  · rw [if_neg (fun hfull => hc ⟨hfull.1, hfull.2.1, hfull.2.2.1,
      hfull.2.2.2.1⟩), if_neg hc]

/-- One day before the first of month `m + 1` is the last day of
month `m`. -/
theorem subOneDay_first (y m : Int) (h : 1 ≤ m) :
    subOneDay ⟨y, m + 1, 1⟩ = ⟨y, m, daysInMonth y m⟩ := by
  unfold subOneDay
  rw [if_neg (by norm_num), if_pos (by dsimp only; omega)]
  dsimp only
  rw [show m + 1 - 1 = m from by ring]

/-- A query operator accepted by the comparison branches. -/
theorem op_allowed_true {op : String}
    (h : op = "=" ∨ ORDER_OPS.contains op = true) :
    (op = "=" || ORDER_OPS.contains op) = true := by
  rcases h with h | h
  · simp [h]
  · rw [h]
    simp

/-- C3: date tokens select granularity by value length — a 4-character
year and a 7-character `YYYY-MM` month compile, for every operator, to
the inclusive `date_loaded` range from the first to the last day of the
year resp. month, while a 10-character `YYYY-MM-DD` day applies the
token's comparison operator to `date_loaded`; every malformed date
value yields no filter (and raises nothing: the compiler is total). -/
theorem buildDateFilter_granularity_spec :
    (∀ op v y, v.length = 4 → pyInt v = some y → 1 ≤ y → y ≤ 9999 →
      buildDateFilter op v = some (dateRange ⟨y, 1, 1⟩ ⟨y, 12, 31⟩)) ∧
    (∀ op v ys ms y m, v.length = 7 → pySplitDash v = [ys, ms] →
      pyInt ys = some y → pyInt ms = some m →
      1 ≤ y → y ≤ 9999 → 1 ≤ m → m ≤ 12 →
      buildDateFilter op v =
        some (dateRange ⟨y, m, 1⟩ ⟨y, m, daysInMonth y m⟩)) ∧
    (∀ op v d, v.length = 10 → parseISO v = some d →
      (op = "=" ∨ ORDER_OPS.contains op = true) →
      buildDateFilter op v = some (.cmp "date_loaded" op (.d d))) ∧
    (∀ op v, dateValueWF v = false → buildDateFilter op v = none) := by
  refine ⟨fun op v y h4 hy hy1 hy2 => ?_,
    fun op v ys ms y m h7 hsplit hys hms hy1 hy2 hm1 hm2 => ?_,
    fun op v d h10 hiso hop => ?_, fun op v hwf => ?_⟩
  · unfold buildDateFilter
    rw [h4, if_pos rfl, hy]
    dsimp only
    rw [mkDate_jan1, mkDate_dec31, if_pos ⟨hy1, hy2⟩, if_pos ⟨hy1, hy2⟩]
  · unfold buildDateFilter
    rw [h7, if_neg (by norm_num), if_pos rfl, hsplit]
    dsimp only
    rw [hys, hms]
    dsimp only
    rw [mkDate_first_of_month, if_pos ⟨hy1, hy2, hm1, hm2⟩]
    dsimp only
    by_cases hm12 : m = 12
    · subst hm12
      rw [if_pos rfl, mkDate_dec31, if_pos ⟨hy1, hy2⟩]
      dsimp only
      rw [show daysInMonth y 12 = 31 from by norm_num [daysInMonth]]
    · rw [if_neg hm12, mkDate_first_of_month,
        if_pos ⟨hy1, hy2, by omega, by omega⟩]
      dsimp only
      rw [subOneDay_first y m hm1]
  · unfold buildDateFilter
    rw [h10, if_neg (by norm_num), if_neg (by norm_num), if_pos rfl, hiso]
    dsimp only
    rw [if_pos (op_allowed_true hop)]
  · unfold dateValueWF at hwf
    unfold buildDateFilter
    by_cases h4 : v.length = 4
    · rw [if_pos h4] at hwf ⊢
      cases hy : pyInt v with
      | none => rfl
      | some y =>
          rw [hy] at hwf
          dsimp only at hwf
          have hnot : ¬ (1 ≤ y ∧ y ≤ 9999) := of_decide_eq_false hwf
          dsimp only
          rw [mkDate_jan1, if_neg hnot, mkDate_dec31, if_neg hnot]
    · rw [if_neg h4] at hwf ⊢
      by_cases h7 : v.length = 7
      · rw [if_pos h7] at hwf ⊢
        cases hsplit : pySplitDash v with
        | nil => rfl
        | cons ys rest =>
            cases rest with
            | nil => rfl
            | cons ms rest2 =>
                cases rest2 with
                | cons z rest3 => rfl
                | nil =>
                    rw [hsplit] at hwf
                    dsimp only at hwf
                    dsimp only
                    cases hys : pyInt ys with
                    | none => cases hms : pyInt ms <;> rfl
                    | some y =>
                        rw [hys] at hwf
                        cases hms : pyInt ms with
                        | none => rfl
                        | some m =>
                            rw [hms] at hwf
                            dsimp only at hwf
                            have hnot :
                                ¬ (1 ≤ y ∧ y ≤ 9999 ∧ 1 ≤ m ∧ m ≤ 12) :=
                              of_decide_eq_false hwf
                            dsimp only
                            rw [mkDate_first_of_month, if_neg hnot]
      · rw [if_neg h7] at hwf ⊢
        by_cases h10 : v.length = 10
        · rw [if_pos h10] at hwf ⊢
          cases hiso : parseISO v with
          | none => rfl
          | some d =>
              rw [hiso] at hwf
              simp at hwf
        · rw [if_neg h10] at hwf ⊢

/-- Witness for C3 at one value per granularity plus a malformed month. -/
theorem buildDateFilter_granularity_spec_witness :
    buildDateFilter "=" "2023" =
      some (dateRange ⟨2023, 1, 1⟩ ⟨2023, 12, 31⟩) ∧
    buildDateFilter ">" "2023-02" =
      some (dateRange ⟨2023, 2, 1⟩ ⟨2023, 2, 28⟩) ∧
    buildDateFilter ">=" "2023-05-15" =
      some (.cmp "date_loaded" ">=" (.d ⟨2023, 5, 15⟩)) ∧
    buildDateFilter "=" "2023-13" = none := by
  refine ⟨?_, ?_, ?_, ?_⟩
  · exact buildDateFilter_granularity_spec.1 "=" "2023" 2023
      (by decide) (by decide) (by decide) (by decide)
  · exact (buildDateFilter_granularity_spec.2.1 ">" "2023-02" "2023" "02" 2023 2
      (by decide) (by decide) (by decide) (by decide)
      (by decide) (by decide) (by decide) (by decide)).trans (by decide)
  · exact buildDateFilter_granularity_spec.2.2.1 ">=" "2023-05-15" ⟨2023, 5, 15⟩
      (by decide) (by decide) (Or.inr (by decide))
  · exact buildDateFilter_granularity_spec.2.2.2 "=" "2023-13" (by decide)

end Emulsion
